import Mathlib

/-!
Verification of the double-pendulum chaos notebook (`double_pendulum.ipynb`).

The notebook's numerical core is embedded shallowly over the real numbers:
Python floats become `ℝ`, `np.cos`/`np.sin` become `Real.cos`/`Real.sin`,
the 4-element state array `y = [theta1, z1, theta2, z2]` becomes the product
type `ℝ × ℝ × ℝ × ℝ`, and NumPy arrays of samples become `List`s.
-/

namespace Chaos

/-- State vector `(theta1, z1, theta2, z2)`: angle and angular velocity of
each pendulum arm, as in the notebook's 4-element array `y`. -/
abbrev V : Type := ℝ × ℝ × ℝ × ℝ

/-- The local variable `denominator1` of `double_pendulum_derivatives` in
cell 2: `(m1 + m2) * L1 - m2 * L1 * cos_delta * cos_delta`. -/
noncomputable def denominator1 (L1 m1 m2 cos_delta : ℝ) : ℝ :=
  (m1 + m2) * L1 - m2 * L1 * cos_delta * cos_delta

/-- The local variable `denominator2` of `double_pendulum_derivatives` in
cell 2: `(L2 / L1) * denominator1`. -/
noncomputable def denominator2 (L1 L2 m1 m2 cos_delta : ℝ) : ℝ :=
  (L2 / L1) * denominator1 L1 m1 m2 cos_delta

/-- The derivative function of cell 2 of the notebook,
`double_pendulum_derivatives(y, t, L1, L2, m1, m2, g)`.
It unpacks `theta1, z1, theta2, z2 = y`, sets
`cos_delta = cos(theta1 - theta2)`, `sin_delta = sin(theta1 - theta2)`,
and returns the 4-vector `dydt` assembled from the notebook's four
assignments `dydt[0] .. dydt[3]`.  The time argument `t` appears in the
Python signature but is never read. -/
noncomputable def double_pendulum_derivatives (y : V) (t : ℝ)
    (L1 L2 m1 m2 g : ℝ) : V :=
  let theta1 := y.1
  let z1 := y.2.1
  let theta2 := y.2.2.1
  let z2 := y.2.2.2
  let cos_delta := Real.cos (theta1 - theta2)
  let sin_delta := Real.sin (theta1 - theta2)
  let d1 := denominator1 L1 m1 m2 cos_delta
  let d2 := denominator2 L1 L2 m1 m2 cos_delta
  (z1,
   (m2 * L1 * z1 * z1 * sin_delta * cos_delta +
      m2 * g * Real.sin theta2 * cos_delta +
      m2 * L2 * z2 * z2 * sin_delta -
      (m1 + m2) * g * Real.sin theta1) / d1,
   z2,
   (-m2 * L2 * z2 * z2 * sin_delta * cos_delta +
      (m1 + m2) * (g * Real.sin theta1 * cos_delta -
        L1 * z1 * z1 * sin_delta - g * Real.sin theta2)) / d2)

/-- The Derivative Function exactly as the specification document words it
(section 4.1): `delta`, `cos_delta`, `sin_delta`, `denom1`, `denom2`, and
the four component formulas written with `omega` names and squares.
Stated separately from `double_pendulum_derivatives` so that the code can
be proved to refine the specification. -/
noncomputable def specDerivativeFunction
    (theta1 omega1 theta2 omega2 t L1 L2 m1 m2 g : ℝ) : V :=
  let delta := theta1 - theta2
  let cos_delta := Real.cos delta
  let sin_delta := Real.sin delta
  let denom1 := (m1 + m2) * L1 - m2 * L1 * cos_delta ^ 2
  let denom2 := (L2 / L1) * denom1
  (omega1,
   (m2 * L1 * omega1 ^ 2 * sin_delta * cos_delta +
      m2 * g * Real.sin theta2 * cos_delta +
      m2 * L2 * omega2 ^ 2 * sin_delta -
      (m1 + m2) * g * Real.sin theta1) / denom1,
   omega2,
   (-(m2 * L2 * omega2 ^ 2 * sin_delta * cos_delta) +
      (m1 + m2) * (g * Real.sin theta1 * cos_delta -
        L1 * omega1 ^ 2 * sin_delta - g * Real.sin theta2)) / denom2)

/-- Cell 3: arm length of the first pendulum, `L1 = 1.0`. -/
def L1 : ℝ := 1.0

/-- Cell 3: arm length of the second pendulum, `L2 = 1.0`. -/
def L2 : ℝ := 1.0

/-- Cell 3: mass of the first pendulum, `m1 = 1.0`. -/
def m1 : ℝ := 1.0

/-- Cell 3: mass of the second pendulum, `m2 = 1.0`. -/
def m2 : ℝ := 1.0

/-- Cell 3: gravitational acceleration, `g = 9.81`. -/
def g : ℝ := 9.81

/-- Cell 3: baseline initial angle of the first pendulum, `np.pi / 2`. -/
noncomputable def theta1_0 : ℝ := Real.pi / 2

/-- Cell 3: baseline initial angle of the second pendulum, `np.pi / 4`. -/
noncomputable def theta2_0 : ℝ := Real.pi / 4

/-- Cell 3: initial angular velocity of the first pendulum, `0.0`. -/
def z1_0 : ℝ := 0.0

/-- Cell 3: initial angular velocity of the second pendulum, `0.0`. -/
def z2_0 : ℝ := 0.0

/-- Cell 3: perturbed initial angle of the first pendulum — identical to
the baseline (`theta1_0_small = theta1_0`). -/
noncomputable def theta1_0_small : ℝ := theta1_0

/-- Cell 3: perturbed initial angle of the second pendulum,
`theta2_0 + 1e-9`. -/
noncomputable def theta2_0_small : ℝ := theta2_0 + 1e-9

/-- Sample `i` of the time grid `np.linspace(0, 100, 2000)` of cell 4:
2000 uniformly spaced values from 0 to 100 inclusive, so sample `i` is
`i * (100 - 0) / (2000 - 1)`. -/
noncomputable def tsample (i : ℕ) : ℝ := (i : ℝ) * (100 / 1999)

/-- Cell 4: the time vector `t = np.linspace(0, 100, 2000)` as a list. -/
noncomputable def t : List ℝ := (List.range 2000).map tsample

/-- Cell 4: baseline initial state `y0 = [theta1_0, z1_0, theta2_0, z2_0]`. -/
noncomputable def y0 : V := (theta1_0, z1_0, theta2_0, z2_0)

/-- Cell 4: perturbed initial state
`y0_small = [theta1_0_small, z1_0, theta2_0_small, z2_0]`. -/
noncomputable def y0_small : V := (theta1_0_small, z1_0, theta2_0_small, z2_0)

/-- Modelled from the spec: one step of the Trajectory Integrator.  The
integrator itself (`scipy.integrate.odeint`) is a library black box whose
source is not part of this repository; section 4.2 of the spec allows
"a fixed 4th-order Runge-Kutta step per requested sample", which is what
is embedded here. -/
noncomputable def rk4_step (f : V → ℝ → V) (y : V) (tn h : ℝ) : V :=
  let k1 := f y tn
  let k2 := f (y + (h / 2) • k1) (tn + h / 2)
  let k3 := f (y + (h / 2) • k2) (tn + h / 2)
  let k4 := f (y + h • k3) (tn + h)
  y + (h / 6) • (k1 + (2 : ℝ) • k2 + (2 : ℝ) • k3 + k4)

/-- Modelled from the spec: the states the Trajectory Integrator appends
after the initial one — one `rk4_step` per remaining time sample, each
advancing from the previous sample's state. -/
noncomputable def odeintSteps (f : V → ℝ → V) : V → ℝ → List ℝ → List V
  | _, _, [] => []
  | y, tn, tnext :: rest =>
    let ynext := rk4_step f y tn (tnext - tn)
    ynext :: odeintSteps f ynext tnext rest

/-- Modelled from the spec: the Trajectory Integrator (the notebook's
`odeint(f, y0, t)` call of cell 4).  Per section 4.2 the output has one
state per time sample and starts with the initial state exactly; the
first time sample is the initial time. -/
noncomputable def odeint (f : V → ℝ → V) (y_init : V) : List ℝ → List V
  | [] => []
  | t0 :: rest => y_init :: odeintSteps f y_init t0 rest

/-- Cell 5: Cartesian coordinates of the two masses computed from one
state's two angles: `x1 = L1 * np.sin(theta1)`, `y1 = -L1 * np.cos(theta1)`,
`x2 = x1 + L2 * np.sin(theta2)`, `y2 = y1 - L2 * np.cos(theta2)`. -/
noncomputable def cartesian (l1 l2 theta1 theta2 : ℝ) : (ℝ × ℝ) × (ℝ × ℝ) :=
  let x1 := l1 * Real.sin theta1
  let y1 := -l1 * Real.cos theta1
  let x2 := x1 + l2 * Real.sin theta2
  let y2 := y1 - l2 * Real.cos theta2
  ((x1, y1), (x2, y2))

/-- Cell 5 applied to a whole trajectory: the angle columns `sol[:, 0]`
and `sol[:, 2]` of every sample are projected elementwise. -/
noncomputable def projectTrajectory (l1 l2 : ℝ) (sol : List V) :
    List ((ℝ × ℝ) × (ℝ × ℝ)) :=
  sol.map fun s => cartesian l1 l2 s.1 s.2.2.1

end Chaos

namespace Chaos

/-- Helper: `odeintSteps` produces exactly one state per remaining time
sample. -/
theorem odeintSteps_length (f : V → ℝ → V) :
    ∀ (y : V) (tn : ℝ) (rest : List ℝ),
      (odeintSteps f y tn rest).length = rest.length := by
  intro y tn rest
  induction rest generalizing y tn with
  | nil => rfl
  | cons tnext rest ih => simp [odeintSteps, ih]

/-- Helper: the notebook's time grid is strictly increasing. -/
theorem t_sorted : t.Pairwise (· < ·) := by
  refine List.Pairwise.map tsample ?_ (List.pairwise_lt_range 2000)
  intro a b hab
  simp only [tsample]
  have hc : (a : ℝ) < (b : ℝ) := by exact_mod_cast hab
  have hpos : (0 : ℝ) < 100 / 1999 := by norm_num
  exact mul_lt_mul_of_pos_right hc hpos

/-- C1: for every state vector, every time value and all parameters, the
code's derivative function returns exactly the 4-tuple of the spec's
formulas, as a pure function of its inputs. -/
theorem c1_derivatives_match_spec
    (theta1 omega1 theta2 omega2 t L1 L2 m1 m2 g : ℝ) :
    double_pendulum_derivatives (theta1, omega1, theta2, omega2) t L1 L2 m1 m2 g =
      specDerivativeFunction theta1 omega1 theta2 omega2 t L1 L2 m1 m2 g := by
  simp only [double_pendulum_derivatives, specDerivativeFunction,
    denominator2, denominator1]
  refine Prod.ext rfl (Prod.ext ?_ (Prod.ext rfl ?_)) <;> ring_nf

/-- C8: the derivative function is autonomous: the scalar time input has no
influence on the returned 4-tuple. -/
theorem c8_autonomous (y : V) (t t' L1 L2 m1 m2 g : ℝ) :
    double_pendulum_derivatives y t L1 L2 m1 m2 g =
      double_pendulum_derivatives y t' L1 L2 m1 m2 g := rfl

/-- C3: for the canonical parameters `L1 = L2 = m1 = m2 = 1` both
denominators are nonzero for every real angle difference (vanishing would
need `cos_delta ^ 2 = 2`); in general, when `L1 ≠ 0` and `m2 ≠ 0`,
`denominator1` vanishes exactly when
`cos_delta ^ 2 = (m1 + m2) * L1 / (m2 * L1)`. -/
theorem c3_canonical_denominators_nonzero :
    (∀ delta : ℝ, denominator1 1 1 1 (Real.cos delta) ≠ 0 ∧
      denominator2 1 1 1 1 (Real.cos delta) ≠ 0) ∧
    (∀ L1 m1 m2 delta : ℝ, L1 ≠ 0 → m2 ≠ 0 →
      (denominator1 L1 m1 m2 (Real.cos delta) = 0 ↔
        Real.cos delta ^ 2 = (m1 + m2) * L1 / (m2 * L1))) := by
  constructor
  · intro delta
    have hc := Real.cos_sq_le_one delta
    have h1 : denominator1 1 1 1 (Real.cos delta) ≠ 0 := by
      simp only [denominator1]
      nlinarith
    refine ⟨h1, ?_⟩
    simp only [denominator2]
    simpa using h1
  · intro L1 m1 m2 delta hL1 hm2
    have hne : m2 * L1 ≠ 0 := mul_ne_zero hm2 hL1
    rw [eq_div_iff hne]
    simp only [denominator1]
    constructor <;> intro h <;> nlinarith [h]

/-- C4: for all positive physical parameters, `denominator1` equals
`L1 * (m1 + m2 * sin delta ^ 2)`, is at least `m1 * L1`, is strictly
positive, and (with `denominator2`) is nonzero — the derivative function
never divides by zero for positive parameters. -/
theorem c4_positive_params_no_singularity
    (L1 L2 m1 m2 delta : ℝ)
    (hL1 : 0 < L1) (hL2 : 0 < L2) (hm1 : 0 < m1) (hm2 : 0 < m2) :
    denominator1 L1 m1 m2 (Real.cos delta) =
        L1 * (m1 + m2 * Real.sin delta ^ 2) ∧
      m1 * L1 ≤ denominator1 L1 m1 m2 (Real.cos delta) ∧
      0 < denominator1 L1 m1 m2 (Real.cos delta) ∧
      denominator1 L1 m1 m2 (Real.cos delta) ≠ 0 ∧
      denominator2 L1 L2 m1 m2 (Real.cos delta) ≠ 0 := by
  have hpyth := Real.sin_sq_add_cos_sq delta
  have hs : Real.sin delta ^ 2 = 1 - Real.cos delta ^ 2 := by linarith
  have heq : denominator1 L1 m1 m2 (Real.cos delta) =
      L1 * (m1 + m2 * Real.sin delta ^ 2) := by
    simp only [denominator1]
    rw [hs]
    ring
  have hge : m1 * L1 ≤ denominator1 L1 m1 m2 (Real.cos delta) := by
    rw [heq]
    have hnn : 0 ≤ L1 * (m2 * Real.sin delta ^ 2) := by positivity
    nlinarith [hnn]
  have hpos : 0 < denominator1 L1 m1 m2 (Real.cos delta) :=
    lt_of_lt_of_le (by positivity) hge
  have h2 : denominator2 L1 L2 m1 m2 (Real.cos delta) ≠ 0 := by
    simp only [denominator2]
    exact ne_of_gt (mul_pos (div_pos hL2 hL1) hpos)
  exact ⟨heq, hge, hpos, ne_of_gt hpos, h2⟩

/-- Witness for C3 at `L1 = m1 = m2 = 1`, `delta = 0`. -/
theorem c3_witness :
    denominator1 1 1 1 (Real.cos 0) = 0 ↔
      Real.cos 0 ^ 2 = (1 + 1) * 1 / (1 * 1) :=
  c3_canonical_denominators_nonzero.2 1 1 1 0 (by norm_num) (by norm_num)

/-- Witness for C4 at `L1 = L2 = m1 = m2 = 1`, `delta = 0`. -/
theorem c4_witness : 0 < denominator1 1 1 1 (Real.cos 0) :=
  (c4_positive_params_no_singularity 1 1 1 1 0
    (by norm_num) (by norm_num) (by norm_num) (by norm_num)).2.2.1

/-- C2 counterexample: the notebook contains no input validation and no
`InvalidParameter` error.  Called with the invalid mass `m2 = -1` (and the
notebook's other canonical parameters) on the zero state, the derivative
function completes its computation and returns `(0, 0, 0, 0)` instead of
raising anything. -/
theorem c2_counterexample :
    double_pendulum_derivatives (0, 0, 0, 0) 0 1 1 1 (-1) (981 / 100) =
      (0, 0, 0, 0) := by
  simp [double_pendulum_derivatives, denominator1, denominator2]

/-- C2 (amended): the code performs no input validation and defines no
`InvalidParameter` error.  The derivative function computes a result even
for a non-positive mass (`m2 = -1`); degenerate inputs never arise in the
notebook only because its parameters are hardcoded positive and its time
grid is non-empty and strictly increasing. -/
theorem c2_no_validation_fixed_inputs :
    (0 < L1 ∧ 0 < L2 ∧ 0 < m1 ∧ 0 < m2 ∧ 0 < g) ∧
    t ≠ [] ∧ t.Pairwise (· < ·) ∧
    double_pendulum_derivatives (0, 0, 0, 0) 0 L1 L2 m1 (-1) g =
      (0, 0, 0, 0) := by
  refine ⟨⟨?_, ?_, ?_, ?_, ?_⟩, ?_, t_sorted, ?_⟩
  · norm_num [L1]
  · norm_num [L2]
  · norm_num [m1]
  · norm_num [m2]
  · norm_num [g]
  · simp [t, List.range_eq_nil]
  · simp [double_pendulum_derivatives, denominator1, denominator2,
      L1, L2, m1, g]

/-- C5: the Trajectory Integrator is deterministic — identical inputs give
identical output sequences — and with a zero perturbation of the second
initial angle the two produced trajectories coincide at every time
sample. -/
theorem c5_deterministic (eps : ℝ) (heps : eps = 0) (ts : List ℝ) :
    odeint (fun y s => double_pendulum_derivatives y s L1 L2 m1 m2 g)
        (theta1_0, z1_0, theta2_0 + eps, z2_0) ts =
      odeint (fun y s => double_pendulum_derivatives y s L1 L2 m1 m2 g)
        y0 ts ∧
    ∀ (f : V → ℝ → V) (a b : V) (ts1 ts2 : List ℝ), a = b → ts1 = ts2 →
      odeint f a ts1 = odeint f b ts2 := by
  subst heps
  refine ⟨by simp [y0], ?_⟩
  intro f a b ts1 ts2 ha ht
  rw [ha, ht]

/-- Witness for C5 with zero perturbation and the one-sample grid `[0]`. -/
theorem c5_witness :
    odeint (fun y s => double_pendulum_derivatives y s L1 L2 m1 m2 g)
        (theta1_0, z1_0, theta2_0 + 0, z2_0) [0] =
      odeint (fun y s => double_pendulum_derivatives y s L1 L2 m1 m2 g)
        y0 [0] :=
  (c5_deterministic 0 rfl [0]).1

/-- C6: for every initial state and non-empty strictly increasing grid the
Trajectory Integrator returns one state per time sample with the first
entry equal to the initial state exactly, and a length-1 grid yields the
trajectory containing exactly the initial state. -/
theorem c6_one_state_per_sample (f : V → ℝ → V) (y_init : V)
    (ts : List ℝ) (hne : ts ≠ []) (hinc : ts.Pairwise (· < ·)) :
    (odeint f y_init ts).length = ts.length ∧
    (odeint f y_init ts).head? = some y_init ∧
    ∀ t0 : ℝ, odeint f y_init [t0] = [y_init] := by
  refine ⟨?_, ?_, ?_⟩
  · cases ts with
    | nil => exact absurd rfl hne
    | cons t0 rest => simp [odeint, odeintSteps_length]
  · cases ts with
    | nil => exact absurd rfl hne
    | cons t0 rest => rfl
  · intro t0
    simp [odeint, odeintSteps]

/-- Witness for C6 on the notebook's derivative function at the grid
`[0, 1]`. -/
theorem c6_witness :
    (odeint (fun y s => double_pendulum_derivatives y s L1 L2 m1 m2 g)
        y0 [0, 1]).length = ([0, 1] : List ℝ).length :=
  (c6_one_state_per_sample
    (fun y s => double_pendulum_derivatives y s L1 L2 m1 m2 g) y0 [0, 1]
    (by simp) (by norm_num [List.pairwise_cons])).1

/-- C7: the Coordinate Projection puts mass 1 at
`(L1*sin theta1, -L1*cos theta1)` and mass 2 at mass 1's position plus
`(L2*sin theta2, -L2*cos theta2)`, and it is a stateless per-sample map:
entry `i` of the projected trajectory depends only on entry `i` of the
state trajectory. -/
theorem c7_cartesian_projection (l1 l2 th1 th2 : ℝ) (sol : List V)
    (i : ℕ) :
    cartesian l1 l2 th1 th2 =
      ((l1 * Real.sin th1, -(l1 * Real.cos th1)),
       (l1 * Real.sin th1 + l2 * Real.sin th2,
        -(l1 * Real.cos th1) + -(l2 * Real.cos th2))) ∧
    (projectTrajectory l1 l2 sol).length = sol.length ∧
    (projectTrajectory l1 l2 sol)[i]? =
      Option.map (fun s : V => cartesian l1 l2 s.1 s.2.2.1)
        sol[i]? := by
  refine ⟨?_, ?_, ?_⟩
  · simp only [cartesian]
    refine Prod.ext (Prod.ext ?_ ?_) (Prod.ext ?_ ?_) <;> ring
  · simp [projectTrajectory]
  · simp [projectTrajectory, List.getElem?_map]

/-- C10: the two integration runs differ only in the second initial angle,
offset by exactly `1e-9` radians, with zero initial angular velocities,
and the shared time grid has 2000 uniformly spaced strictly increasing
samples from 0 to 100 whose first element is the initial time 0. -/
theorem c10_experiment_setup :
    y0_small.1 = y0.1 ∧
    y0_small.2.2.1 = y0.2.2.1 + 1e-9 ∧
    y0.2.1 = 0 ∧ y0.2.2.2 = 0 ∧ y0_small.2.1 = 0 ∧ y0_small.2.2.2 = 0 ∧
    t.length = 2000 ∧
    t[0]? = some 0 ∧
    t[1999]? = some 100 ∧
    t.Pairwise (· < ·) ∧
    (∀ i : ℕ, tsample (i + 1) - tsample i = 100 / 1999) := by
  refine ⟨rfl, rfl, by norm_num [y0, z1_0], by norm_num [y0, z2_0],
    by norm_num [y0_small, z1_0], by norm_num [y0_small, z2_0],
    by simp [t], ?_, ?_, t_sorted, ?_⟩
  · rw [t, List.getElem?_map, List.getElem?_range (by norm_num)]
    norm_num [tsample]
  · rw [t, List.getElem?_map, List.getElem?_range (by norm_num)]
    norm_num [tsample]
  · intro i
    simp only [tsample]
    push_cast
    ring

end Chaos
